import Mathlib

/-!
Shallow embedding of `src/streamlit_app.py` (CollatzCalculator): the
arithmetic-expression evaluator `parse_number` (lines 94-145) with its
digit-budget guard, the Collatz sequence generator `collatz_generator`
(lines 148-152), and the truncated renderer `compute_sequence_strings`
(lines 160-168), together with theorems settling the specification claims.
-/

/-- The digit budget `MAX_DIGITS = 10000` (source line 10). -/
def MAX_DIGITS : ℕ := 10000

/-- Binary operator kinds that can appear under an `ast.BinOp` node.
`add`, `sub`, `mult`, `div`, `pow` are exactly the binary keys of the
`operators` dict (source lines 99-107); `mod`, `floorDivOp` and `bitOr`
are representative binary kinds outside the dict (e.g. `%`, `//`, `|`),
which line 116 rejects.  `div` is `ast.Div` (the `/` token), which the
dict maps to `operator.floordiv` (line 103). -/
inductive BinKind where
  | add
  | sub
  | mult
  | div
  | pow
  | mod
  | floorDivOp
  | bitOr
deriving DecidableEq

/-- Unary operator kinds under an `ast.UnaryOp` node: `uSub` (`ast.USub`) and
`uAdd` (`ast.UAdd`) are the unary keys of the `operators` dict (lines 105-106);
`invert` (`~`) is a representative unary kind outside the dict, rejected at
line 127. -/
inductive UnKind where
  | uAdd
  | uSub
  | invert
deriving DecidableEq

/-- Python AST expression nodes as consumed by `eval_node` (source lines
109-135).  `constInt` is an `ast.Constant` whose value is an `int` (Python
`bool` is an `int` subtype, so `True` / `False` are the integer constants
1 / 0); `constFloat` and `constStr` are `ast.Constant` nodes with non-integer
values (e.g. `3.5`, a string), which line 131 rejects; `name`, `call` and
`compare` are representative node kinds outside the supported set, which
line 135 rejects.  The root `ast.Expression` wrapper (lines 110-111) is
elided: trees here are expression bodies. -/
inductive PyAst where
  | constInt (v : ℤ)
  | constFloat
  | constStr
  | name (id : String)
  | call (func : PyAst) (args : List PyAst)
  | compare
  | binOp (op : BinKind) (l r : PyAst)
  | unaryOp (op : UnKind) (e : PyAst)

/-- The size-limit error message of source line 123
(`f"Number too large: exceeds {MAX_DIGITS} digits"`). -/
def sizeMsg : String := "Number too large: exceeds " ++ toString MAX_DIGITS ++ " digits"

/-- Dispatch on the binary operator once both operands are evaluated (source
lines 115-124): the `op_type not in operators` check, the `ast.Pow`
pre-checks, and the `operators[op_type](left, right)` application.  `div`
applies `operator.floordiv`, whose `ZeroDivisionError` (CPython message
"integer division or modulo by zero") is modelled as an error, since line
140 catches every exception alike.

The power guard of lines 121-123 tests `right * math.log10(left) > MAX_DIGITS`
(a float computation in the source); it is embedded through the exact
real-number equivalence `e * log10 b > D ↔ b ^ e > 10 ^ D`, valid for
`b ≥ 1`, `e ≥ 0`, which are guaranteed by the preceding check at line 119. -/
def apply_bin : BinKind → ℤ → ℤ → Except String ℤ
  | .add, a, b => .ok (a + b)
  | .sub, a, b => .ok (a - b)
  | .mult, a, b => .ok (a * b)
  | .div, a, b =>
    if b = 0 then .error ("integer division or modulo by zero")
    else .ok (Int.fdiv a b)
  | .pow, a, b =>
    if a ≤ 0 ∨ b < 0 then .error ("Invalid exponentiation")
    else if (10 : ℤ) ^ MAX_DIGITS < a ^ b.toNat then .error sizeMsg
    else .ok (a ^ b.toNat)
  | .mod, _, _ => .error ("Unsupported operator")
  | .floorDivOp, _, _ => .error ("Unsupported operator")
  | .bitOr, _, _ => .error ("Unsupported operator")

/-- Dispatch on a unary operator (source lines 125-129): the membership check
at lines 126-128 precedes the operand evaluation at line 129, so an
unsupported unary operator is reported without looking at the operand. -/
def apply_un : UnKind → Except String ℤ → Except String ℤ
  | .uAdd, r => r.map (fun v => v)
  | .uSub, r => r.map (fun v => -v)
  | .invert, _ => .error ("Unsupported unary operator")

/-- The evaluator `eval_node` (source lines 109-135), with raised exceptions
modelled as `Except.error` carrying the exception message.  For a `BinOp`,
both operands are evaluated (left first) before the operator is inspected,
exactly as in lines 113-115. -/
def eval_node : PyAst → Except String ℤ
  | .constInt v => .ok v
  | .constFloat => .error ("Only integers are allowed")
  | .constStr => .error ("Only integers are allowed")
  | .name _ => .error ("Unsupported expression")
  | .call _ _ => .error ("Unsupported expression")
  | .compare => .error ("Unsupported expression")
  | .binOp op l r =>
    match eval_node l with
    | .error e => .error e
    | .ok a =>
      match eval_node r with
      | .error e => .error e
      | .ok b => apply_bin op a b
  | .unaryOp op e => apply_un op (eval_node e)

/-- The error normalization of source lines 137-141: any exception raised
during parsing or evaluation is re-raised as
`ValueError(f"Invalid numerical expression: {e}")`. -/
def wrapInvalid : Except String ℤ → Except String ℤ
  | .error e => .error ("Invalid numerical expression: " ++ e)
  | .ok v => .ok v

/-- The final validation of source lines 143-145: the result must be a
positive integer.  In this embedding every evaluator value is an integer
(mirroring that `eval_node` only ever returns Python `int`s), so only the
positivity half of `not isinstance(value, int) or value <= 0` is dynamic. -/
def final_check : Except String ℤ → Except String ℤ
  | .ok v => if v ≤ 0 then .error ("Result is not a positive integer") else .ok v
  | .error e => .error e

/-- `parse_number` (source lines 94-145) applied to an already-parsed
expression tree: evaluation, error wrapping, final positivity check. -/
def parse_number_tree (t : PyAst) : Except String ℤ :=
  final_check (wrapInvalid (eval_node t))

/-- The preprocessing of source lines 96-97: delete every `,`, delete every
space, then rewrite each `^` to `**`.  Strings are modelled as character
lists; Python `str.replace` with a single-character pattern is exactly
per-character deletion (replacement by the empty string) or expansion. -/
def preprocess (s : List Char) : List Char :=
  ((s.filter (fun c => c ≠ ',')).filter (fun c => c ≠ ' ')).flatMap
    (fun c => if c = '^' then ['*', '*'] else [c])

/-- The whole of `parse_number` (source lines 94-145) with the call to
`ast.parse` (line 138) — external standard-library code, not part of this
repository — abstracted as a parameter `p` from preprocessed character lists
to trees; a parse failure is wrapped exactly like an evaluation failure,
since line 140 catches both. -/
def parse_number_with (p : List Char → Except String PyAst) (s : List Char) :
    Except String ℤ :=
  final_check (wrapInvalid ((p (preprocess s)).bind eval_node))

/-- The decimal value of a digit string, most significant digit first
(`48 = Char.toNat of the zero digit`). -/
def digits_val (s : List Char) : ℕ :=
  s.foldl (fun a c => 10 * a + (c.toNat - 48)) 0

/-- Modelled from the spec: the behaviour of Python `ast.parse` (source line
138), standard-library code missing from this repository, on inputs that are
bare decimal numerals.  A nonempty all-digit string is a valid Python decimal
literal iff it has no leading zero or is all zeros (`decinteger ::=
nonzerodigit digit* | "0"+`), and parses to an integer `Constant`; any other
character list is treated as a parse failure here, since only numeral inputs
are exercised through this model. -/
def parse_numeral (s : List Char) : Except String PyAst :=
  if s ≠ [] ∧ s.all Char.isDigit ∧ (s.all (fun c => c = '0') ∨ s.head? ≠ some '0') then
    .ok (.constInt (digits_val s))
  else .error ("invalid syntax")

/-- `parse_number` on raw character strings, instantiated with the numeral
parse model. -/
def parse_number_str (s : List Char) : Except String ℤ :=
  parse_number_with parse_numeral s

/-- Deletion of every comma and space character, the reference transformation
of claim C10. -/
def remove_separators (s : List Char) : List Char :=
  s.filter (fun c => c ≠ ',' ∧ c ≠ ' ')

/-- One step of `collatz_generator` (source line 151):
`n // 2` if `n` is even, else `3 * n + 1`. -/
def collatz_step (n : ℕ) : ℕ := if n % 2 = 0 then n / 2 else 3 * n + 1

/-- The truncation sentinel of source line 165
(`f"... (truncated at {max_items} items)"`). -/
def sentinel (k : ℕ) : String := "... (truncated at " ++ toString k ++ " items)"

/-- The loop of `compute_sequence_strings` (source lines 162-167) over the
lazily generated Collatz sequence.  `x` is the generator's current value,
`fuel` is how many more loop iterations the `i >= max_items` test lets
through; the second component counts the elements pulled from
`collatz_generator` (one per loop iteration).  When `fuel` runs out, the
pulled element triggers the sentinel and the `break`; when `x = 1` the
generator yields `1` and stops, ending the loop. -/
def css_run (k : ℕ) : ℕ → ℕ → List String × ℕ
  | _, 0 => ([sentinel k], 1)
  | x, fuel + 1 =>
    if x = 1 then ([toString x], 1)
    else
      let r := css_run k (collatz_step x) fuel
      (toString x :: r.1, 1 + r.2)

/-- `compute_sequence_strings(n, max_items := k)` (source lines 160-168):
the rendered (possibly truncated) Collatz sequence of `n`. -/
def compute_sequence_strings (n k : ℕ) : List String :=
  (css_run k n k).1

/-- The number of elements `compute_sequence_strings(n, max_items := k)`
pulls from `collatz_generator(n)`. -/
def css_pulls (n k : ℕ) : ℕ :=
  (css_run k n k).2

/-- Decimal digit count of an integer (`1` for zero), used to express the
digit budget of claim C1. -/
def digit_count (v : ℤ) : ℕ := Nat.log 10 v.natAbs + 1

/-- The recognizer for trees built only from the node kinds the spec calls
legal: integer literals, unary `+`/`-`, and binary `+`, `-`, `*`, `/`
(integer division), `**`. -/
def allowed_bin : BinKind → Bool
  | .add => true
  | .sub => true
  | .mult => true
  | .div => true
  | .pow => true
  | _ => false

/-- Allowed unary operator kinds: unary `+` and `-`. -/
def allowed_un : UnKind → Bool
  | .uAdd => true
  | .uSub => true
  | .invert => false

/-- Trees built exclusively from integer literals, allowed unary operators
and allowed binary operators. -/
def allowed_tree : PyAst → Bool
  | .constInt _ => true
  | .binOp op l r => allowed_bin op && allowed_tree l && allowed_tree r
  | .unaryOp op e => allowed_un op && allowed_tree e
  | _ => false

/-- The tree of (preprocessed) input `10^6000*10^6000`:
`BinOp(BinOp(10, Pow, 6000), Mult, BinOp(10, Pow, 6000))`. -/
def big_mult_tree : PyAst :=
  .binOp .mult (.binOp .pow (.constInt 10) (.constInt 6000))
    (.binOp .pow (.constInt 10) (.constInt 6000))

/-- The tree of input `7^-1` (preprocessed to `7**-1`): Python precedence
parses it as `7 ** (-1)`, i.e. `BinOp(7, Pow, UnaryOp(USub, 1))`. -/
def tree_seven_pow_neg_one : PyAst :=
  .binOp .pow (.constInt 7) (.unaryOp .uSub (.constInt 1))

/-- The tree of input `-7^2` (preprocessed to `-7**2`): Python precedence
binds `**` tighter than a leading unary minus, so this is `-(7 ** 2)`,
i.e. `UnaryOp(USub, BinOp(7, Pow, 2))`. -/
def tree_neg_seven_pow_two : PyAst :=
  .unaryOp .uSub (.binOp .pow (.constInt 7) (.constInt 2))

-- ### Helper lemmas

theorem ten_pow_le_budget {n : ℕ} (h : n ≤ MAX_DIGITS) :
    (10 : ℤ) ^ n ≤ (10 : ℤ) ^ MAX_DIGITS :=
  pow_le_pow_right₀ (by norm_num) h

theorem eval_pow_ok {b e : ℤ} (hb : 0 < b) (he : 0 ≤ e)
    (hle : b ^ e.toNat ≤ (10 : ℤ) ^ MAX_DIGITS) :
    eval_node (.binOp .pow (.constInt b) (.constInt e)) = .ok (b ^ e.toNat) := by
  simp only [eval_node, apply_bin]
  rw [if_neg, if_neg]
  · exact not_lt.2 hle
  · push_neg
    exact ⟨hb, he⟩

theorem eval_pow_too_big {b e : ℤ} (hb : 0 < b) (he : 0 ≤ e)
    (hgt : (10 : ℤ) ^ MAX_DIGITS < b ^ e.toNat) :
    eval_node (.binOp .pow (.constInt b) (.constInt e)) = .error sizeMsg := by
  simp only [eval_node, apply_bin]
  rw [if_neg, if_pos hgt]
  push_neg
  exact ⟨hb, he⟩

theorem eval_pow_domain {b e : ℤ} (h : b ≤ 0 ∨ e < 0) :
    eval_node (.binOp .pow (.constInt b) (.constInt e)) =
      .error ("Invalid exponentiation") := by
  simp only [eval_node, apply_bin]
  rw [if_pos h]

theorem two_pow_40000_big : (10 : ℤ) ^ MAX_DIGITS < (2 : ℤ) ^ ((40000 : ℤ).toNat) := by
  have h1 : ((40000 : ℤ).toNat) = 4 * 10000 := rfl
  have h2 : (2 : ℤ) ^ (4 * 10000) = ((2 : ℤ) ^ 4) ^ 10000 := pow_mul 2 4 10000
  have h3 : (10 : ℤ) ^ (10000 : ℕ) < ((2 : ℤ) ^ 4) ^ 10000 := by
    apply pow_lt_pow_left₀ (by norm_num) (by norm_num)
    norm_num
  rw [h1, h2, MAX_DIGITS]
  exact h3

theorem eval_ok_allowed : ∀ (t : PyAst) (v : ℤ),
    eval_node t = .ok v → allowed_tree t = true
  | .constInt _, _, _ => rfl
  | .binOp op l r, v, h => by
    cases hl : eval_node l with
    | error e => simp [eval_node, hl] at h
    | ok a =>
      cases hr : eval_node r with
      | error e => simp [eval_node, hl, hr] at h
      | ok b =>
        simp only [eval_node, hl, hr] at h
        have hal : allowed_tree l = true := eval_ok_allowed l a hl
        have har : allowed_tree r = true := eval_ok_allowed r b hr
        cases op <;>
          first
          | (simp [allowed_tree, allowed_bin, hal, har]; done)
          | simp [apply_bin] at h
  | .unaryOp op e, v, h => by
    simp only [eval_node] at h
    cases op with
    | uAdd =>
      cases he : eval_node e with
      | error msg => simp [apply_un, he, Except.map] at h
      | ok a =>
        have : allowed_tree e = true := eval_ok_allowed e a he
        simp [allowed_tree, allowed_un, this]
    | uSub =>
      cases he : eval_node e with
      | error msg => simp [apply_un, he, Except.map] at h
      | ok a =>
        have : allowed_tree e = true := eval_ok_allowed e a he
        simp [allowed_tree, allowed_un, this]
    | invert => simp [apply_un] at h

theorem eval_binOp_ok {op : BinKind} {l r : PyAst} {a b : ℤ}
    (hl : eval_node l = .ok a) (hr : eval_node r = .ok b) :
    eval_node (.binOp op l r) = apply_bin op a b := by
  simp only [eval_node, hl, hr]

theorem parse_ok_of_eval_pos {t : PyAst} {v : ℤ}
    (h : eval_node t = .ok v) (hv : 0 < v) : parse_number_tree t = .ok v := by
  rw [parse_number_tree, h]
  simp [wrapInvalid, final_check, hv.not_le]

theorem parse_err_of_eval_err {t : PyAst} {m : String}
    (h : eval_node t = .error m) :
    parse_number_tree t = .error ("Invalid numerical expression: " ++ m) := by
  rw [parse_number_tree, h]
  rfl

theorem eval_pow_10_25 :
    eval_node (.binOp .pow (.constInt 10) (.constInt 25)) =
      .ok ((10 : ℤ) ^ ((25 : ℤ).toNat)) :=
  eval_pow_ok (by norm_num) (by norm_num)
    (by rw [show ((25 : ℤ).toNat) = 25 from rfl]
        exact ten_pow_le_budget (by norm_num [MAX_DIGITS]))

theorem eval_pow_10_6000 :
    eval_node (.binOp .pow (.constInt 10) (.constInt 6000)) =
      .ok ((10 : ℤ) ^ ((6000 : ℤ).toNat)) :=
  eval_pow_ok (by norm_num) (by norm_num)
    (by rw [show ((6000 : ℤ).toNat) = 6000 from rfl]
        exact ten_pow_le_budget (by norm_num [MAX_DIGITS]))

theorem eval_pow_7_2 :
    eval_node (.binOp .pow (.constInt 7) (.constInt 2)) =
      .ok ((7 : ℤ) ^ ((2 : ℤ).toNat)) :=
  eval_pow_ok (by norm_num) (by norm_num)
    (by rw [show ((2 : ℤ).toNat) = 2 from rfl]
        calc (7 : ℤ) ^ 2 ≤ (10 : ℤ) ^ 2 := by norm_num
        _ ≤ (10 : ℤ) ^ MAX_DIGITS := ten_pow_le_budget (by norm_num [MAX_DIGITS]))

theorem eval_unary_eq (op : UnKind) (e : PyAst) :
    eval_node (.unaryOp op e) = apply_un op (eval_node e) := rfl

theorem eval_neg_seven_pow_two : eval_node tree_neg_seven_pow_two = .ok (-49) := by
  rw [tree_neg_seven_pow_two, eval_unary_eq, eval_pow_7_2]
  rw [show ((2 : ℤ).toNat) = 2 from rfl]
  rw [show ((7 : ℤ) ^ (2 : ℕ)) = 49 by norm_num]
  rfl

theorem parse_neg_seven_pow_two :
    parse_number_tree tree_neg_seven_pow_two =
      .error ("Result is not a positive integer") := by
  rw [parse_number_tree, eval_neg_seven_pow_two]
  rfl

-- ### Claim theorems

/-- C8: for every input tree, the evaluator returns a value only when the
root evaluation result is strictly positive (`≥ 1`); any result `≤ 0` is
rejected by the final validation, regardless of how it was computed (in
this embedding every evaluator value is an integer, so the
`isinstance(value, int)` half of the check holds identically). -/
theorem c8_positive_result (t : PyAst) (v : ℤ)
    (h : parse_number_tree t = .ok v) : 1 ≤ v := by
  unfold parse_number_tree at h
  cases hw : wrapInvalid (eval_node t) with
  | error e => rw [hw] at h; simp [final_check] at h
  | ok w =>
    rw [hw] at h
    by_cases hle : w ≤ 0
    · simp [final_check, hle] at h
    · simp [final_check, hle] at h
      omega

/-- Witness for C8 at the concrete tree `5`. -/
theorem c8_witness : 1 ≤ (5 : ℤ) :=
  c8_positive_result (.constInt 5) 5 rfl

/-- C2: for a power node with integer base `b` and exponent `e`, the
evaluator rejects when `b ≤ 0` or `e < 0` ("Invalid exponentiation");
otherwise it rejects with the size-limit error — before any power value is
produced — exactly when the digit estimate `e * log10 b` exceeds
`MAX_DIGITS`, i.e. when `b ^ e > 10 ^ MAX_DIGITS`; otherwise it returns
exactly `b ^ e`.  Concretely, `10^25` evaluates to exactly `10 ** 25` and
`2^40000` fails with the size-limit error. -/
theorem c2_pow_semantics :
    (∀ b e : ℤ, b ≤ 0 ∨ e < 0 →
      eval_node (.binOp .pow (.constInt b) (.constInt e)) =
        .error ("Invalid exponentiation")) ∧
    (∀ b e : ℤ, 0 < b → 0 ≤ e → (10 : ℤ) ^ MAX_DIGITS < b ^ e.toNat →
      eval_node (.binOp .pow (.constInt b) (.constInt e)) = .error sizeMsg) ∧
    (∀ b e : ℤ, 0 < b → 0 ≤ e → b ^ e.toNat ≤ (10 : ℤ) ^ MAX_DIGITS →
      eval_node (.binOp .pow (.constInt b) (.constInt e)) = .ok (b ^ e.toNat)) ∧
    parse_number_tree (.binOp .pow (.constInt 10) (.constInt 25)) =
      .ok ((10 : ℤ) ^ ((25 : ℤ).toNat)) ∧
    parse_number_tree (.binOp .pow (.constInt 2) (.constInt 40000)) =
      .error ("Invalid numerical expression: " ++ sizeMsg) := by
  refine ⟨fun b e h => eval_pow_domain h,
    fun b e hb he h => eval_pow_too_big hb he h,
    fun b e hb he h => eval_pow_ok hb he h,
    parse_ok_of_eval_pos eval_pow_10_25 (by positivity),
    parse_err_of_eval_err (eval_pow_too_big (by norm_num) (by norm_num) two_pow_40000_big)⟩

/-- Witness for C2 at `7 ** (-1)`, `2 ** 40000` and `10 ** 25`. -/
theorem c2_witness :
    eval_node (.binOp .pow (.constInt 7) (.constInt (-1))) =
      .error ("Invalid exponentiation") ∧
    eval_node (.binOp .pow (.constInt 2) (.constInt 40000)) = .error sizeMsg ∧
    eval_node (.binOp .pow (.constInt 10) (.constInt 25)) =
      .ok ((10 : ℤ) ^ ((25 : ℤ).toNat)) :=
  ⟨c2_pow_semantics.1 7 (-1) (Or.inr (by norm_num)),
   c2_pow_semantics.2.1 2 40000 (by norm_num) (by norm_num) two_pow_40000_big,
   c2_pow_semantics.2.2.1 10 25 (by norm_num) (by norm_num)
     (by rw [show ((25 : ℤ).toNat) = 25 from rfl]
         exact ten_pow_le_budget (by norm_num [MAX_DIGITS]))⟩

/-- C1 counterexample: the digit budget does not bound every evaluation
step.  The tree of `10^6000*10^6000` (each power individually passes the
guard) evaluates successfully to `10 ^ 12000`, whose decimal digit count
`12001` exceeds `MAX_DIGITS = 10000`: the multiplication step is not
guarded. -/
theorem c1_counterexample :
    parse_number_tree big_mult_tree = .ok ((10 : ℤ) ^ (12000 : ℕ)) ∧
    MAX_DIGITS < digit_count ((10 : ℤ) ^ (12000 : ℕ)) := by
  constructor
  · have hm : eval_node big_mult_tree = .ok ((10 : ℤ) ^ (12000 : ℕ)) := by
      rw [big_mult_tree, eval_binOp_ok eval_pow_10_6000 eval_pow_10_6000]
      rw [show ((6000 : ℤ).toNat) = 6000 from rfl]
      show Except.ok ((10 : ℤ) ^ (6000 : ℕ) * (10 : ℤ) ^ (6000 : ℕ)) =
        Except.ok ((10 : ℤ) ^ (12000 : ℕ))
      rw [show (12000 : ℕ) = 6000 + 6000 from by norm_num, pow_add]
    exact parse_ok_of_eval_pos hm (by positivity)
  · rw [digit_count]
    rw [show ((10 : ℤ) ^ (12000 : ℕ)).natAbs = 10 ^ (12000 : ℕ) by
      rw [Int.natAbs_pow, show (Int.natAbs 10) = 10 from rfl]]
    rw [Nat.log_pow (by norm_num)]
    norm_num [MAX_DIGITS]

/-- C1 (amended): only the power operator is guarded by the digit budget: a
power node that evaluates successfully yields a value of at most
`10 ^ MAX_DIGITS` (so at most `MAX_DIGITS + 1` digits), while the other
operators and literals are not screened at all, as the counterexample
shows. -/
theorem c1_amended_pow_guard (l r : PyAst) (v : ℤ)
    (h : eval_node (.binOp .pow l r) = .ok v) : v ≤ (10 : ℤ) ^ MAX_DIGITS := by
  cases hl : eval_node l with
  | error e => simp [eval_node, hl] at h
  | ok a =>
    cases hr : eval_node r with
    | error e => simp [eval_node, hl, hr] at h
    | ok b =>
      rw [eval_binOp_ok hl hr] at h
      simp only [apply_bin] at h
      by_cases h1 : a ≤ 0 ∨ b < 0
      · rw [if_pos h1] at h
        exact absurd h (by simp)
      · rw [if_neg h1] at h
        by_cases h2 : (10 : ℤ) ^ MAX_DIGITS < a ^ b.toNat
        · rw [if_pos h2] at h
          exact absurd h (by simp)
        · rw [if_neg h2] at h
          simp only [Except.ok.injEq] at h
          rw [← h]
          exact le_of_not_lt h2

/-- Witness for C1's amended theorem at the tree of `10 ** 25`. -/
theorem c1_amended_witness : (10 : ℤ) ^ ((25 : ℤ).toNat) ≤ (10 : ℤ) ^ MAX_DIGITS :=
  c1_amended_pow_guard (.constInt 10) (.constInt 25) _ eval_pow_10_25

/-- C3: evaluation succeeds only on trees built from integer literals,
unary `+`/`-`, and binary `+`, `-`, `*`, `/` (integer division), `**`;
every other construct is rejected.  Concretely, the tree of `3.5` (a
non-integer constant) and the tree of `abs(5)` (a call) both fail. -/
theorem c3_only_allowed_constructs :
    (∀ (t : PyAst) (v : ℤ), eval_node t = .ok v → allowed_tree t = true) ∧
    parse_number_tree .constFloat =
      .error ("Invalid numerical expression: Only integers are allowed") ∧
    parse_number_tree (.call (.name ("abs")) [.constInt 5]) =
      .error ("Invalid numerical expression: Unsupported expression") :=
  ⟨eval_ok_allowed, rfl, rfl⟩

/-- Witness for C3 at the literal tree `5`. -/
theorem c3_witness : allowed_tree (.constInt 5) = true :=
  c3_only_allowed_constructs.1 (.constInt 5) 5 rfl

/-- C6 counterexample: `-7^2` does not fail with the power domain error.
Python precedence parses `-7**2` as `-(7**2)`, so the base of the power is
`7 > 0`; the power succeeds with `49`, negation gives `-49`, and the
failure is the final non-positive-result rejection, a different error than
the domain error "Invalid exponentiation". -/
theorem c6_counterexample :
    parse_number_tree tree_neg_seven_pow_two =
      .error ("Result is not a positive integer") ∧
    parse_number_tree tree_neg_seven_pow_two ≠
      .error ("Invalid numerical expression: Invalid exponentiation") :=
  ⟨parse_neg_seven_pow_two, by rw [parse_neg_seven_pow_two]; simp⟩

/-- C6 (amended): `7^-1` (parsed as `7 ** (-1)`) fails with the domain
error, while `-7^2` (parsed as `-(7 ** 2)` by grammar precedence, so its
power base is positive) evaluates to `-49` and fails with the
non-positive-result error instead of a domain error. -/
theorem c6_amended :
    parse_number_tree tree_seven_pow_neg_one =
      .error ("Invalid numerical expression: Invalid exponentiation") ∧
    parse_number_tree tree_neg_seven_pow_two =
      .error ("Result is not a positive integer") := by
  constructor
  · have hneg : eval_node (.unaryOp .uSub (.constInt 1)) = .ok (-1) := rfl
    have hseven : eval_node (.constInt 7) = .ok 7 := rfl
    have hpow : eval_node tree_seven_pow_neg_one =
        .error ("Invalid exponentiation") := by
      rw [tree_seven_pow_neg_one, eval_binOp_ok hseven hneg]
      simp only [apply_bin]
      rw [if_pos (Or.inr (by norm_num))]
    exact parse_err_of_eval_err hpow
  · exact parse_neg_seven_pow_two

theorem fdiv_pos_case (a : ℤ) {b : ℤ} (hpos : 0 < b) :
    Int.fdiv a b = ⌊(a : ℚ) / (b : ℚ)⌋ := by
  have hbn : ((b.toNat : ℕ) : ℤ) = b := Int.toNat_of_nonneg hpos.le
  have hq : ((b.toNat : ℕ) : ℚ) = (b : ℚ) := by
    rw [show ((b.toNat : ℕ) : ℚ) = (((b.toNat : ℕ) : ℤ) : ℚ) by push_cast; ring]
    rw [hbn]
  rw [Int.fdiv_eq_ediv _ hpos.le, ← hbn, ← Rat.floor_intCast_div_natCast a b.toNat,
    hq, hbn]

theorem fdiv_negSucc_ofNat_succ (m n : ℕ) :
    Int.fdiv (Int.ofNat (m + 1)) (Int.negSucc n) =
      ⌊((Int.ofNat (m + 1) : ℤ) : ℚ) / ((Int.negSucc n : ℤ) : ℚ)⌋ := by
  have hfd : Int.fdiv (Int.ofNat (m + 1)) (Int.negSucc n) =
      Int.negSucc (m / (n + 1)) := rfl
  have hpos : (0 : ℚ) < ((n + 1 : ℕ) : ℚ) := by positivity
  have hdm : (n + 1) * (m / (n + 1)) + m % (n + 1) = m := Nat.div_add_mod m (n + 1)
  have hlt : m % (n + 1) < n + 1 := Nat.mod_lt _ (Nat.succ_pos n)
  have key1 : (m / (n + 1)) * (n + 1) < m + 1 := by
    rw [mul_comm]
    omega
  have key2 : m + 1 ≤ (m / (n + 1) + 1) * (n + 1) := by
    have expand : (m / (n + 1) + 1) * (n + 1) = (n + 1) * (m / (n + 1)) + (n + 1) := by
      ring
    omega
  have hofnat : ((Int.ofNat (m + 1) : ℤ) : ℚ) = ((m + 1 : ℕ) : ℚ) := by
    rw [Int.ofNat_eq_natCast]
    push_cast
    ring
  have hA : ((m + 1 : ℕ) : ℚ) / ((n + 1 : ℕ) : ℚ) ≤ ((m / (n + 1) : ℕ) : ℚ) + 1 := by
    rw [div_le_iff₀ hpos]
    exact_mod_cast key2
  have hB : ((m / (n + 1) : ℕ) : ℚ) < ((m + 1 : ℕ) : ℚ) / ((n + 1 : ℕ) : ℚ) := by
    rw [lt_div_iff₀ hpos]
    exact_mod_cast key1
  have hcast : ((Int.negSucc n : ℤ) : ℚ) = -(((n + 1 : ℕ) : ℚ)) := by
    rw [Int.cast_negSucc]
  rw [hfd, hcast, div_neg, eq_comm, Int.floor_eq_iff]
  constructor
  · rw [Int.cast_negSucc, hofnat]
    push_cast at hA ⊢
    linarith
  · rw [Int.cast_negSucc, hofnat]
    push_cast at hB ⊢
    linarith

theorem fdiv_negSucc_negSucc (m n : ℕ) :
    Int.fdiv (Int.negSucc m) (Int.negSucc n) =
      ⌊((Int.negSucc m : ℤ) : ℚ) / ((Int.negSucc n : ℤ) : ℚ)⌋ := by
  have hfd : Int.fdiv (Int.negSucc m) (Int.negSucc n) =
      Int.ofNat ((m + 1) / (n + 1)) := rfl
  rw [hfd, Int.cast_negSucc, Int.cast_negSucc, neg_div_neg_eq,
    Rat.floor_natCast_div_natCast, Int.ofNat_eq_natCast, Int.natCast_div]

theorem fdiv_eq_rat_floor (a b : ℤ) (hb : b ≠ 0) :
    Int.fdiv a b = ⌊(a : ℚ) / (b : ℚ)⌋ := by
  rcases lt_or_gt_of_ne hb with hneg | hpos
  · obtain ⟨n, rfl⟩ := Int.eq_negSucc_of_lt_zero hneg
    cases a with
    | ofNat m =>
      cases m with
      | zero =>
        rw [show Int.fdiv (Int.ofNat 0) (Int.negSucc n) = 0 from rfl]
        rw [show ((Int.ofNat 0 : ℤ) : ℚ) = 0 by norm_num]
        rw [zero_div]
        norm_num
      | succ m => exact fdiv_negSucc_ofNat_succ m n
    | negSucc m => exact fdiv_negSucc_negSucc m n
  · exact fdiv_pos_case a hpos

/-- C7: the `/` operator evaluates its two integer operands with
floor-division semantics — `Int.fdiv`, which equals the rational quotient
rounded toward negative infinity, matching Python `a // b` — and a zero
divisor is rejected as a validation failure (the `ZeroDivisionError` is
caught and normalized) rather than producing a value. -/
theorem c7_division :
    (∀ a b : ℤ,
      eval_node (.binOp .div (.constInt a) (.constInt b)) =
        if b = 0 then .error ("integer division or modulo by zero")
        else .ok (Int.fdiv a b)) ∧
    (∀ a b : ℤ, b ≠ 0 → Int.fdiv a b = ⌊(a : ℚ) / (b : ℚ)⌋) ∧
    parse_number_tree (.binOp .div (.constInt 1) (.constInt 0)) =
      .error ("Invalid numerical expression: integer division or modulo by zero") := by
  refine ⟨fun a b => ?_, fdiv_eq_rat_floor, ?_⟩
  · rw [eval_binOp_ok (show eval_node (.constInt a) = .ok a from rfl)
      (show eval_node (.constInt b) = .ok b from rfl)]
    rfl
  · have h : eval_node (.binOp .div (.constInt 1) (.constInt 0)) =
        .error ("integer division or modulo by zero") := by
      rw [eval_binOp_ok (show eval_node (.constInt 1) = .ok 1 from rfl)
        (show eval_node (.constInt 0) = .ok 0 from rfl)]
      simp [apply_bin]
    exact parse_err_of_eval_err h

/-- Witness for C7: `(-7) // 2 = -4`, the floor of `-3.5`. -/
theorem c7_witness :
    Int.fdiv (-7) 2 = ⌊(((-7 : ℤ) : ℚ)) / (((2 : ℤ) : ℚ))⌋ ∧
    eval_node (.binOp .div (.constInt (-7)) (.constInt 2)) = .ok (Int.fdiv (-7) 2) := by
  constructor
  · exact c7_division.2.1 (-7) 2 (by norm_num)
  · rw [c7_division.1 (-7) 2]
    norm_num

/-- The ten decimal digit characters. -/
def digit_chars : List Char :=
  ['0', '1', '2', '3', '4', '5', '6', '7', '8', '9']

theorem digit_char_isDigit {c : Char} (h : c ∈ digit_chars) : c.isDigit = true := by
  fin_cases h <;> decide

theorem digit_char_ne {c : Char} (h : c ∈ digit_chars) :
    c ≠ ',' ∧ c ≠ ' ' ∧ c ≠ '^' := by
  fin_cases h <;> exact ⟨by decide, by decide, by decide⟩

theorem preprocess_cons (c : Char) (t : List Char) :
    preprocess (c :: t) =
      if c = ',' then preprocess t
      else if c = ' ' then preprocess t
      else if c = '^' then '*' :: '*' :: preprocess t
      else c :: preprocess t := by
  by_cases h1 : c = ','
  · simp [preprocess, List.filter_cons, h1]
  · by_cases h2 : c = ' '
    · simp [preprocess, List.filter_cons, h1, h2]
    · by_cases h3 : c = '^'
      · simp [preprocess, List.filter_cons, h1, h2, h3]
      · simp [preprocess, List.filter_cons, h1, h2, h3]

theorem preprocess_all_digits {s : List Char}
    (h : ∀ c ∈ s, c ∈ digit_chars ∨ c = ',' ∨ c = ' ') :
    preprocess s = s.filter Char.isDigit := by
  induction s with
  | nil => rfl
  | cons c t ih =>
    have hc := h c (List.mem_cons_self c t)
    have ht : ∀ x ∈ t, x ∈ digit_chars ∨ x = ',' ∨ x = ' ' :=
      fun x hx => h x (List.mem_cons_of_mem c hx)
    rw [preprocess_cons, List.filter_cons]
    rcases hc with hd | rfl | rfl
    · have h1 := digit_char_ne hd
      have h2 := digit_char_isDigit hd
      rw [if_neg h1.1, if_neg h1.2.1, if_neg h1.2.2, ih ht]
      simp [h2]
    · rw [if_pos rfl, ih ht, if_neg (by decide : ¬(','.isDigit = true))]
    · rw [if_neg (by decide), if_pos rfl, ih ht,
        if_neg (by decide : ¬(' '.isDigit = true))]

theorem foldl_digits_ge_one (t : List Char) (a : ℕ) (ha : 1 ≤ a) :
    1 ≤ t.foldl (fun a c => 10 * a + (c.toNat - 48)) a := by
  induction t generalizing a with
  | nil => exact ha
  | cons c t ih => exact ih (10 * a + (c.toNat - 48)) (by omega)

theorem digits_val_pos {d : Char} (t : List Char) (hne : d ≠ '0')
    (hd : d ∈ digit_chars) : 1 ≤ digits_val (d :: t) := by
  have h1 : 1 ≤ d.toNat - 48 := by
    fin_cases hd
    · exact absurd rfl hne
    all_goals decide
  have heq : digits_val (d :: t) =
      t.foldl (fun a c => 10 * a + (c.toNat - 48)) (10 * 0 + (d.toNat - 48)) := rfl
  rw [heq]
  exact foldl_digits_ge_one t _ (by omega)

theorem parse_numeral_digits {s : List Char} (hne : s ≠ [])
    (hall : s.all Char.isDigit = true) (hlead : s.head? ≠ some '0') :
    parse_numeral s = .ok (.constInt (digits_val s)) := by
  rw [parse_numeral, if_pos]
  exact ⟨hne, hall, Or.inr hlead⟩

/-- C5 counterexample: `"0"` is a decimal string whose direct decimal
reading is `0`, yet the evaluator rejects it through the final positivity
check instead of returning that value. -/
theorem c5_counterexample :
    digits_val ("0".toList) = 0 ∧
    parse_number_str ("0".toList) = .error ("Result is not a positive integer") :=
  ⟨rfl, rfl⟩

/-- C5 (amended): for strings made of digits, commas and spaces (the two
separator characters the code actually strips — other whitespace is not
removed) whose digit part is nonempty, has no leading zero (Python literals
reject leading zeros) and hence denotes a positive value, `parse_number`
returns exactly the integer obtained by deleting the separators and reading
the digits as a decimal numeral. -/
theorem c5_amended (s : List Char)
    (hmem : ∀ c ∈ s, c ∈ digit_chars ∨ c = ',' ∨ c = ' ')
    (hne : s.filter Char.isDigit ≠ [])
    (hlead : (s.filter Char.isDigit).head? ≠ some '0') :
    parse_number_str s = .ok ((digits_val (s.filter Char.isDigit) : ℤ)) := by
  have hpre : preprocess s = s.filter Char.isDigit := preprocess_all_digits hmem
  have hall : (s.filter Char.isDigit).all Char.isDigit = true := by
    rw [List.all_eq_true]
    intro x hx
    exact (List.mem_filter.1 hx).2
  have hnum : parse_numeral (s.filter Char.isDigit) =
      .ok (.constInt (digits_val (s.filter Char.isDigit))) :=
    parse_numeral_digits hne hall hlead
  have hpos : 1 ≤ digits_val (s.filter Char.isDigit) := by
    obtain ⟨d, t, hdt⟩ : ∃ d t, s.filter Char.isDigit = d :: t := by
      cases h : s.filter Char.isDigit with
      | nil => exact absurd h hne
      | cons d t => exact ⟨d, t, rfl⟩
    have hmemd : d ∈ s := (List.mem_filter.1 (hdt ▸ List.mem_cons_self d t)).1
    have hdd : d.isDigit = true := (List.mem_filter.1 (hdt ▸ List.mem_cons_self d t)).2
    have hdig : d ∈ digit_chars := by
      rcases hmem d hmemd with h | rfl | rfl
      · exact h
      · exact absurd hdd (by decide)
      · exact absurd hdd (by decide)
    have hd0 : d ≠ '0' := by
      intro hcon
      apply hlead
      rw [hdt, hcon]
      rfl
    rw [hdt]
    exact digits_val_pos t hd0 hdig
  have hposz : (0 : ℤ) < (digits_val (s.filter Char.isDigit) : ℤ) := by
    exact_mod_cast hpos
  rw [parse_number_str, parse_number_with, hpre, hnum]
  show final_check (wrapInvalid (eval_node (.constInt (digits_val (s.filter Char.isDigit))))) =
    .ok ((digits_val (s.filter Char.isDigit) : ℤ))
  rw [show eval_node (.constInt (digits_val (s.filter Char.isDigit))) =
    .ok ((digits_val (s.filter Char.isDigit) : ℤ)) from rfl]
  simp [wrapInvalid, final_check, hposz.not_le]

/-- Witness for C5's amended theorem at the concrete string `"1,000 000"`. -/
theorem c5_amended_witness :
    parse_number_str ("1,000 000".toList) =
      .ok ((digits_val (("1,000 000".toList).filter Char.isDigit) : ℤ)) :=
  c5_amended ("1,000 000".toList) (by decide) (by decide) (by decide)

theorem remove_separators_cons (c : Char) (t : List Char) :
    remove_separators (c :: t) =
      if c = ',' ∨ c = ' ' then remove_separators t
      else c :: remove_separators t := by
  by_cases h1 : c = ','
  · simp [remove_separators, List.filter_cons, h1]
  · by_cases h2 : c = ' '
    · simp [remove_separators, List.filter_cons, h1, h2]
    · simp [remove_separators, List.filter_cons, h1, h2]

theorem preprocess_remove_separators (s : List Char) :
    preprocess (remove_separators s) = preprocess s := by
  induction s with
  | nil => rfl
  | cons c t ih =>
    rw [remove_separators_cons, preprocess_cons]
    by_cases h1 : c = ','
    · rw [if_pos (Or.inl h1), if_pos h1, ih]
    · by_cases h2 : c = ' '
      · rw [if_pos (Or.inr h2), if_neg h1, if_pos h2, ih]
      · rw [if_neg (by tauto), preprocess_cons, ih]

/-- C10: separator stripping is positional, not restricted to
thousands-separator positions: for every parse front-end `p` and every
input string `s`, `parse_number` on `s` gives the identical result (value
or failure) as on `s` with every `,` and `' '` character deleted first.
In particular `"1,2"` and `"1 2"` both evaluate to `12` rather than being
rejected as malformed separator placements. -/
theorem c10_separator_removal :
    (∀ (p : List Char → Except String PyAst) (s : List Char),
      parse_number_with p s = parse_number_with p (remove_separators s)) ∧
    parse_number_str ("1,2".toList) = .ok 12 ∧
    parse_number_str ("1 2".toList) = .ok 12 := by
  refine ⟨fun p s => ?_, rfl, rfl⟩
  rw [parse_number_with, parse_number_with, preprocess_remove_separators]

theorem render_range_shift (g : ℕ → ℕ) (x m : ℕ) :
    (List.range (m + 1)).map (fun i => toString (g^[i] x)) =
      toString x :: (List.range m).map (fun i => toString (g^[i] (g x))) := by
  rw [List.range_succ_eq_map, List.map_cons, List.map_map]
  simp [Function.comp, Function.iterate_succ_apply]

theorem css_run_not_reached (k : ℕ) : ∀ (fuel x : ℕ),
    (∀ j, j < fuel → collatz_step^[j] x ≠ 1) →
    (css_run k x fuel).1 =
      (List.range fuel).map (fun i => toString (collatz_step^[i] x)) ++ [sentinel k]
  | 0, x, _ => by simp [css_run]
  | fuel + 1, x, h => by
    have hx : x ≠ 1 := by
      have := h 0 (Nat.succ_pos fuel)
      simpa using this
    have hshift : ∀ j, j < fuel → collatz_step^[j] (collatz_step x) ≠ 1 := by
      intro j hj
      have := h (j + 1) (by omega)
      rwa [Function.iterate_succ_apply] at this
    simp only [css_run]
    rw [if_neg hx]
    rw [show (toString x :: (css_run k (collatz_step x) fuel).1,
      1 + (css_run k (collatz_step x) fuel).2).1 =
      toString x :: (css_run k (collatz_step x) fuel).1 from rfl]
    rw [css_run_not_reached k fuel (collatz_step x) hshift]
    rw [render_range_shift collatz_step x fuel, List.cons_append]

theorem css_run_reached (k : ℕ) : ∀ (fuel x L : ℕ), L < fuel →
    collatz_step^[L] x = 1 → (∀ j, j < L → collatz_step^[j] x ≠ 1) →
    (css_run k x fuel).1 =
      (List.range (L + 1)).map (fun i => toString (collatz_step^[i] x))
  | 0, _, L, hL, _, _ => absurd hL (by omega)
  | fuel + 1, x, 0, _, h1, _ => by
    have hx : x = 1 := by simpa using h1
    subst hx
    rfl
  | fuel + 1, x, L + 1, hL, h1, hbefore => by
    have hx : x ≠ 1 := by
      have := hbefore 0 (Nat.succ_pos L)
      simpa using this
    simp only [css_run]
    rw [if_neg hx]
    rw [show (toString x :: (css_run k (collatz_step x) fuel).1,
      1 + (css_run k (collatz_step x) fuel).2).1 =
      toString x :: (css_run k (collatz_step x) fuel).1 from rfl]
    rw [css_run_reached k fuel (collatz_step x) L (by omega)
      (by rwa [← Function.iterate_succ_apply])
      (fun j hj => by
        rw [← Function.iterate_succ_apply]
        exact hbefore (j + 1) (by omega))]
    rw [render_range_shift collatz_step x (L + 1)]

theorem css_run_pulls_le (k : ℕ) : ∀ (fuel x : ℕ), (css_run k x fuel).2 ≤ fuel + 1
  | 0, _ => by simp [css_run]
  | fuel + 1, x => by
    simp only [css_run]
    by_cases hx : x = 1
    · rw [if_pos hx]
      omega
    · rw [if_neg hx]
      have := css_run_pulls_le k fuel (collatz_step x)
      rw [show (toString x :: (css_run k (collatz_step x) fuel).1,
        1 + (css_run k (collatz_step x) fuel).2).2 =
        1 + (css_run k (collatz_step x) fuel).2 from rfl]
      omega

/-- C9: for every positive integer `n` and limit `k`, the truncated
rendering of the Collatz sequence of `n` yields exactly `k` rendered
elements followed by exactly one sentinel string when the sequence has not
reached `1` within its first `k` elements (in particular whenever its true
length exceeds `k`), and yields the exact full rendered sequence with no
sentinel when `1` is reached at index `L < k` (true length `L + 1 ≤ k`);
moreover the renderer pulls at most `k + 1` elements from the generator,
so truncation bounds the work performed, not just the output. -/
theorem c9_truncated_rendering (n k : ℕ) (hn : 1 ≤ n) :
    ((∀ j, j < k → collatz_step^[j] n ≠ 1) →
      compute_sequence_strings n k =
        (List.range k).map (fun i => toString (collatz_step^[i] n)) ++ [sentinel k]) ∧
    (∀ L, L < k → collatz_step^[L] n = 1 → (∀ j, j < L → collatz_step^[j] n ≠ 1) →
      compute_sequence_strings n k =
        (List.range (L + 1)).map (fun i => toString (collatz_step^[i] n))) ∧
    css_pulls n k ≤ k + 1 :=
  ⟨fun h => css_run_not_reached k k n h,
   fun L hL h1 h2 => css_run_reached k k n L hL h1 h2,
   css_run_pulls_le k k n⟩

/-- Witness for C9: for `n = 6`, `k = 2` the sequence `6, 3, 10, ...` is
longer than 2, so two rendered elements plus the sentinel; for `n = 2`,
`k = 5` the sequence `2, 1` ends at index `L = 1 < 5`, so the full
rendering with no sentinel; and the pull count is bounded. -/
theorem c9_witness :
    compute_sequence_strings 6 2 =
      (List.range 2).map (fun i => toString (collatz_step^[i] 6)) ++ [sentinel 2] ∧
    compute_sequence_strings 2 5 =
      (List.range 2).map (fun i => toString (collatz_step^[i] 2)) ∧
    css_pulls 6 2 ≤ 3 :=
  ⟨(c9_truncated_rendering 6 2 (by norm_num)).1 (by decide),
   (c9_truncated_rendering 2 5 (by norm_num)).2.1 1 (by norm_num) (by decide) (by decide),
   (c9_truncated_rendering 6 2 (by norm_num)).2.2⟩
